import Mathlib

/-!
Verification of the real-time chat gateway (socket handlers, message service)
against its natural-language specification. The definitions below are a
shallow embedding of the JavaScript source: JS `Map`s become association
lists whose `set` replaces in place, JS `Set`s become duplicate-free lists,
timestamps become `Nat` milliseconds, and each socket handler becomes a pure
function from gateway state (and a document-store snapshot) to new state plus
the list of emitted events.
-/

namespace ChatGateway

/-! ## JS Map / Set helpers

`mget`/`mset`/`mdel`/`madjust` model `Map.get`/`Map.set`/`Map.delete` and
in-place mutation of a value held in a map. `Map.set` overwrites an existing
key in place; `Map.delete` removes the entry. `sadd`/`sdel` model
`Set.add`/`Set.delete`. -/

def mget {β : Type} (k : String) : List (String × β) → Option β
  | [] => none
  | (k', v) :: rest => if k' = k then some v else mget k rest

def mset {β : Type} (k : String) (v : β) : List (String × β) → List (String × β)
  | [] => [(k, v)]
  | (k', v') :: rest => if k' = k then (k, v) :: rest else (k', v') :: mset k v rest

def mdel {β : Type} (k : String) : List (String × β) → List (String × β)
  | [] => []
  | (k', v') :: rest => if k' = k then rest else (k', v') :: mdel k rest

def madjust {β : Type} (k : String) (f : β → β) : List (String × β) → List (String × β)
  | [] => []
  | (k', v') :: rest => if k' = k then (k', f v') :: rest else (k', v') :: madjust k f rest

def sadd (x : String) (s : List String) : List String :=
  if x ∈ s then s else s ++ [x]

def sdel (x : String) : List String → List String
  | [] => []
  | y :: rest => if y = x then rest else y :: sdel x rest

/-- Keys of an association list are pairwise distinct (the JS `Map` invariant). -/
def keysNodup {β : Type} (l : List (String × β)) : Prop :=
  (l.map Prod.fst).Nodup

instance {β : Type} (l : List (String × β)) : Decidable (keysNodup l) := by
  unfold keysNodup; infer_instance

/-! ## Data model -/

/-- A user document in the store (`models/user.js`); only the fields the
gateway reads are kept. -/
structure UserDoc where
  username : String
  avatar : String
  isOnline : Bool
  lastSeen : Nat
  blocked : List String
deriving DecidableEq, Repr

/-- A room document (`models/room.js`): activity flag, type, membership,
admins, creator, mute setting and the counters touched by
`incrementMessageCount`. -/
structure RoomDoc where
  name : String
  isActive : Bool
  roomType : String
  members : List String
  admins : List String
  creator : String
  muteAll : Bool
  messageCount : Nat
  totalMessages : Nat
  lastActivity : Nat
deriving DecidableEq, Repr

/-- A message document (`models/message.js` schema inside `models/user.js`). -/
structure MessageDoc where
  mid : Nat
  sender : String
  room : Option String
  recipient : Option String
  content : String
  mtype : String
  isPrivate : Bool
  replyTo : Option Nat
  isDeleted : Bool
  createdAt : Nat
deriving DecidableEq, Repr

/-- The document store plus the model clock (`Date.now()` at the instant the
current inbound event is processed). -/
structure Db where
  users : List (String × UserDoc)
  rooms : List (String × RoomDoc)
  messages : List MessageDoc
  nextMessageId : Nat
  now : Nat
deriving DecidableEq, Repr

/-- One value of the `onlineUsers` map: socket id, the user object captured at
connect time, connect timestamp, and the connection's room set. -/
structure ConnEntry where
  socketId : String
  username : String
  avatar : String
  connectedAt : Nat
  rooms : List String
deriving DecidableEq, Repr

/-- One value of the `privateTyping` map. -/
structure TypingData where
  userId : String
  username : String
  startTime : Nat
deriving DecidableEq, Repr

/-- The gateway's in-memory state: the three module-level maps of
`socket/socketHandlers` plus the socket.io adapter's room-to-socket index
(which `socket.join` / `socket.leave` mutate and `socket.to(room)` reads). -/
structure GatewayState where
  onlineUsers : List (String × ConnEntry)
  typingUsers : List (String × List String)
  privateTyping : List (String × TypingData)
  ioRooms : List (String × List String)
deriving DecidableEq, Repr

def initialState : GatewayState :=
  { onlineUsers := [], typingUsers := [], privateTyping := [], ioRooms := [] }

/-- An authenticated socket: `authenticateSocket` middleware guarantees
`socket.userId` and `socket.user` are set before any handler runs. -/
structure Socket where
  id : String
  userId : String
  username : String
  avatar : String
deriving DecidableEq, Repr

/-! ## Outbound events -/

/-- Delivery target of one `emit` call: `socket.emit` / `io.to(sid).emit`
target a single socket, `socket.to(room).emit` targets every socket in the
adapter room except the sender, `io.emit` targets every connected socket. -/
inductive Target where
  | toSocket (sid : String)
  | toRoomExceptSelf (rid : String) (senderSid : String)
  | broadcastAll
deriving DecidableEq, Repr

/-- The payload fields the claims inspect; all other payload fields are
carried by the source but never branch control flow. -/
structure Payload where
  tempId : Option String := none
  userId : Option String := none
  roomId : Option String := none
  mids : List Nat := []
deriving DecidableEq, Repr

structure Event where
  name : String
  target : Target
  payload : Payload
deriving DecidableEq, Repr

/-- Whether one emitted event is delivered to socket `sid`, given the adapter
room index of state `st`. -/
def deliversTo (st : GatewayState) (e : Event) (sid : String) : Bool :=
  match e.target with
  | .toSocket s => s = sid
  | .toRoomExceptSelf rid sender =>
      decide (sid ≠ sender) && decide (sid ∈ (mget rid st.ioRooms).getD [])
  | .broadcastAll => true

/-- How many events named `n` in `evs` are delivered to socket `sid`. -/
def countDeliveries (st : GatewayState) (evs : List Event) (n : String) (sid : String) : Nat :=
  (evs.filter (fun e => decide (e.name = n) && deliversTo st e sid)).length

/-- The `error`-named events among an emission list. -/
def errorsOf (evs : List Event) : List Event :=
  evs.filter (fun e => decide (e.name = "error"))

/-! ## Message service (`services/messageService.js`) -/

/-- An `AppError`: message and HTTP status. -/
structure AppError where
  msg : String
  status : Nat
deriving DecidableEq, Repr

/-- JS `String.prototype.trim()`: strip leading and trailing whitespace. -/
def jsTrim (s : String) : String :=
  ⟨((s.data.dropWhile Char.isWhitespace).reverse.dropWhile Char.isWhitespace).reverse⟩

/-- `Object.values(MESSAGE_TYPES)` from `utils/constants.js`. -/
def messageTypeValues : List String := ["text", "image", "file", "system"]

/-- `VALIDATION_RULES.MESSAGE.MAX_LENGTH`. -/
def messageMaxLength : Nat := 5000

/-- `roomSchema.methods.isMember`. -/
def RoomDoc.isMember (r : RoomDoc) (uid : String) : Bool := uid ∈ r.members

/-- `roomSchema.methods.isAdmin`: listed admin or the creator. -/
def RoomDoc.isAdmin (r : RoomDoc) (uid : String) : Bool :=
  uid ∈ r.admins || r.creator = uid

/-- `userSchema.methods.hasBlocked`. -/
def UserDoc.hasBlocked (u : UserDoc) (uid : String) : Bool := uid ∈ u.blocked

/-- `roomSchema.methods.incrementMessageCount`: bumps both counters and
refreshes `lastActivity`; the save persists immediately. -/
def RoomDoc.incrementMessageCount (r : RoomDoc) (now : Nat) : RoomDoc :=
  { r with messageCount := r.messageCount + 1,
           totalMessages := r.totalMessages + 1,
           lastActivity := now }

/-- Arguments of `messageService.createMessage` (metadata, mentions and
priority are carried through by the source without branching and are
omitted). -/
structure CreateArgs where
  sender : String
  room : Option String := none
  recipient : Option String := none
  content : String
  mtype : String := "text"
  isPrivate : Bool := false
  replyTo : Option Nat := none
deriving DecidableEq, Repr

/-- `messageService.validateMessageInput`: required non-blank content, length
cap, known type. (The `replyTo` string-type check is moot in a typed model.) -/
def validateMessageInput (content : String) (mtype : String) : Option AppError :=
  if (jsTrim content).length = 0 then some ⟨"Validation error", 422⟩
  else if content.length > messageMaxLength then some ⟨"Validation error", 422⟩
  else if decide (mtype ∉ messageTypeValues) then some ⟨"Validation error", 422⟩
  else none

/-- The room/recipient phase of `messageService.createMessage`: for a room
message, resolve and authorize the room and **persist the counter increment**
(`await roomDoc.incrementMessageCount()`); for a private message, check the
recipient and both block lists. Returns the (possibly updated) store and the
`room` / `recipient` fields of the message being built. -/
def createMessageRoomStep (db : Db) (a : CreateArgs) (senderUser : UserDoc) :
    Except AppError (Db × Option String × Option String) :=
  if !a.isPrivate then
    match a.room with
    | none => .error ⟨"Room ID is required for room messages", 400⟩
    | some rid =>
      match mget rid db.rooms with
      | none => .error ⟨"Room not found", 404⟩
      | some roomDoc =>
        if !roomDoc.isActive then .error ⟨"Cannot send messages to inactive room", 400⟩
        else if !roomDoc.isMember a.sender then
          .error ⟨"You do not have access to this room", 403⟩
        else if roomDoc.muteAll && !roomDoc.isAdmin a.sender then
          .error ⟨"Room is currently muted", 403⟩
        else
          let db' := { db with
            rooms := mset rid (roomDoc.incrementMessageCount db.now) db.rooms }
          .ok (db', some rid, none)
  else
    match a.recipient with
    | none => .error ⟨"Recipient ID is required for private messages", 400⟩
    | some rcp =>
      if a.sender = rcp then .error ⟨"Cannot send private message to yourself", 400⟩
      else
        match mget rcp db.users with
        | none => .error ⟨"Recipient not found", 404⟩
        | some recipientUser =>
          if recipientUser.hasBlocked a.sender then
            .error ⟨"Cannot send message to this user", 403⟩
          else if senderUser.hasBlocked rcp then
            .error ⟨"Cannot send message to blocked user", 403⟩
          else .ok (db, none, some rcp)

/-- The `replyTo` phase of `messageService.createMessage`: the parent must
exist, be undeleted, and belong to the same room / the same private
conversation. -/
def createMessageReplyStep (db1 : Db) (a : CreateArgs) : Except AppError Unit :=
  match a.replyTo with
  | none => .ok ()
  | some pid =>
    match db1.messages.find? (fun m => m.mid = pid) with
    | none => .error ⟨"Parent message not found", 404⟩
    | some parent =>
      if parent.isDeleted then .error ⟨"Cannot reply to deleted message", 400⟩
      else if !a.isPrivate && decide (parent.room ≠ a.room) then
        .error ⟨"Can only reply to messages in the same room", 400⟩
      else if a.isPrivate &&
          !((decide (parent.sender = a.sender) &&
              decide (parent.recipient = a.recipient)) ||
            (decide (parent.recipient = some a.sender) &&
              decide (some parent.sender = a.recipient))) then
        .error ⟨"Can only reply to messages in the same conversation", 400⟩
      else .ok ()

/-- `messageService.createMessage`, in source order: validate input, resolve
sender, run the room/recipient phase (which persists the room counter
increment **before** anything else can still fail), validate `replyTo`
against the parent message, and finally save the new message. Returns the
store as left by the call — the counter increment survives a later failure —
and either the saved message or the thrown `AppError`. -/
def createMessage (db : Db) (a : CreateArgs) : Db × Except AppError MessageDoc :=
  match validateMessageInput a.content a.mtype with
  | some e => (db, .error e)
  | none =>
    match mget a.sender db.users with
    | none => (db, .error ⟨"User not found", 404⟩)
    | some senderUser =>
      match createMessageRoomStep db a senderUser with
      | .error e => (db, .error e)
      | .ok (db1, roomField, recipientField) =>
        match createMessageReplyStep db1 a with
        | .error e => (db1, .error e)
        | .ok _ =>
          let msg : MessageDoc :=
            { mid := db1.nextMessageId
              sender := a.sender
              room := roomField
              recipient := recipientField
              content := jsTrim a.content
              mtype := a.mtype
              isPrivate := a.isPrivate
              replyTo := a.replyTo
              isDeleted := false
              createdAt := db1.now }
          ({ db1 with messages := db1.messages ++ [msg],
                       nextMessageId := db1.nextMessageId + 1 },
           .ok msg)

/-- Stable insertion of a message into a list sorted by ascending
`createdAt` (models the Mongo sort used by `findWithPagination`). -/
def insertByCreatedAt (m : MessageDoc) : List MessageDoc → List MessageDoc
  | [] => [m]
  | x :: rest =>
      if m.createdAt ≤ x.createdAt then m :: x :: rest
      else x :: insertByCreatedAt m rest

/-- Sort messages by ascending creation time (stable). -/
def sortByCreatedAt (l : List MessageDoc) : List MessageDoc :=
  l.foldr insertByCreatedAt []

/-- `MAX_PAGE_SIZE` from `utils/constants.js`. -/
def maxPageSize : Nat := 100

/-- `messageService.getRoomMessages` for the call shape used by the socket
join handler (`page` defaulted to 1, `before`/`after` absent): verify the
room exists and the requester is a member, filter the room's undeleted
messages, sort by **ascending** `createdAt` (the `before`-absent branch),
and take the first `min maxPageSize (max 1 limit)` of them; `hasNext`
reflects `findWithPagination`'s page arithmetic. -/
def getRoomMessages (db : Db) (roomId : String) (userId : String) (limit : Nat) :
    Except AppError (List MessageDoc × Bool) :=
  match mget roomId db.rooms with
  | none => .error ⟨"Room not found", 404⟩
  | some room =>
    if !room.isMember userId then .error ⟨"You do not have access to this room", 403⟩
    else
      let filtered := db.messages.filter (fun m => m.room = some roomId && !m.isDeleted)
      let limitNum := min maxPageSize (max 1 limit)
      let sorted := sortByCreatedAt filtered
      let msgs := sorted.take limitNum
      let total := filtered.length
      let totalPages := (total + limitNum - 1) / limitNum
      .ok (msgs, decide (1 < totalPages))

/-! ## Room service (`services/roomService.js`) -/

/-- `roomService.getRoomById`: the room must exist and be active; for a
private room a supplied requester must be a member. On success the handler
only uses the room object itself, which we return. -/
def getRoomById (db : Db) (roomId : String) (userId : String) :
    Except AppError RoomDoc :=
  match mget roomId db.rooms with
  | none => .error ⟨"Room not found", 404⟩
  | some room =>
    if !room.isActive then .error ⟨"Room is not active", 404⟩
    else if room.roomType = "private" && !room.isMember userId then
      .error ⟨"You do not have access to this room", 403⟩
    else .ok room

/-! ## Socket handlers (`socket/socketHandlers.js`) -/

/-- JS truthiness of an optional string (`!x` is true for a missing field and
for the empty string). -/
def optStrFalsy : Option String → Bool
  | none => true
  | some s => s = ""

/-- An `error` event emitted to the acting socket only. -/
def errEvent (sid : String) : Event :=
  { name := "error", target := .toSocket sid, payload := {} }

/-- Code-unit lexicographic comparison, as used by JS default `Array.sort`. -/
def strLtB : List Char → List Char → Bool
  | [], [] => false
  | [], _ :: _ => true
  | _ :: _, [] => false
  | c :: cs, e :: es =>
      if c.toNat < e.toNat then true
      else if e.toNat < c.toNat then false
      else strLtB cs es

/-- `getConversationKey`: the two ids sorted then joined with a colon. -/
def conversationKey (a b : String) : String :=
  if strLtB a.data b.data then a ++ ":" ++ b else b ++ ":" ++ a

/-- `socket.join(roomId)` on the adapter's room index. -/
def ioJoin (sid rid : String) (rooms : List (String × List String)) :
    List (String × List String) :=
  mset rid (sadd sid ((mget rid rooms).getD [])) rooms

/-- `socket.leave(roomId)` on the adapter's room index. -/
def ioLeave (sid rid : String) (rooms : List (String × List String)) :
    List (String × List String) :=
  madjust rid (sdel sid) rooms

/-- `User.findByIdAndUpdate(uid, { isOnline, lastSeen })`; a missing user id
is a silent no-op, as in Mongoose. -/
def setPresence (db : Db) (uid : String) (b : Bool) : Db :=
  let f := fun (u : UserDoc) => { u with isOnline := b, lastSeen := db.now }
  { db with users := madjust uid f db.users }

/-- `broadcastUserStatus`: global `user_online` / `user_offline` via
`io.emit`. -/
def broadcastUserStatus (uid : String) (isOnline : Bool) : Event :=
  { name := if isOnline then "user_online" else "user_offline"
    target := .broadcastAll
    payload := { userId := some uid } }

/-- The per-room typing cleanup loop of `cleanupUserData`: drop the user from
every room's typing set and delete sets that become empty. -/
def cleanupRoomTyping (uid : String) :
    List (String × List String) → List (String × List String)
  | [] => []
  | (rid, s) :: rest =>
      if uid ∈ s then
        let s' := sdel uid s
        if s'.isEmpty then cleanupRoomTyping uid rest
        else (rid, s') :: cleanupRoomTyping uid rest
      else (rid, s) :: cleanupRoomTyping uid rest

/-- `cleanupUserData(userId, socketId)`: remove the registry entry only when
its recorded socket id equals the disconnecting socket's id; always drop the
user from room typing sets and delete the user's own private typing
sessions. -/
def cleanupUserData (uid sid : String) (st : GatewayState) : GatewayState :=
  let ou :=
    match mget uid st.onlineUsers with
    | some e => if e.socketId = sid then mdel uid st.onlineUsers else st.onlineUsers
    | none => st.onlineUsers
  { st with
    onlineUsers := ou
    typingUsers := cleanupRoomTyping uid st.typingUsers
    privateTyping := st.privateTyping.filter (fun p => !(decide (p.2.userId = uid))) }

/-- The room loop of `handleConnection`: for each active persisted room the
user belongs to, join the adapter room, add it to the registry entry's room
set, and announce `user_online` to the room's other live sockets. -/
def joinPersistedRooms (sock : Socket) :
    List String → GatewayState → GatewayState × List Event
  | [], st => (st, [])
  | rid :: rest, st =>
      let st' := { st with
        ioRooms := ioJoin sock.id rid st.ioRooms
        onlineUsers := madjust sock.userId
          (fun e => { e with rooms := sadd rid e.rooms }) st.onlineUsers }
      let ev : Event :=
        { name := "user_online"
          target := .toRoomExceptSelf rid sock.id
          payload := { userId := some sock.userId, roomId := some rid } }
      let res := joinPersistedRooms sock rest st'
      (res.1, ev :: res.2)

/-- `handleConnection`: install the registry entry (a plain `Map.set`, which
replaces any previous connection for the same user), persist "online",
broadcast presence, send the online-users snapshot, auto-join every active
persisted room, and confirm with `connected`. -/
def handleConnection (st : GatewayState) (db : Db) (sock : Socket) :
    GatewayState × Db × List Event :=
  let entry : ConnEntry :=
    { socketId := sock.id, username := sock.username, avatar := sock.avatar
      connectedAt := db.now, rooms := [] }
  let st1 := { st with onlineUsers := mset sock.userId entry st.onlineUsers }
  let db1 := setPresence db sock.userId true
  let userRooms :=
    (db.rooms.filter (fun p => p.2.isActive && decide (sock.userId ∈ p.2.members))).map
      Prod.fst
  let res := joinPersistedRooms sock userRooms st1
  let evs :=
    broadcastUserStatus sock.userId true ::
    { name := "online_users", target := Target.toSocket sock.id, payload := {} } ::
    res.2 ++
    [{ name := "connected", target := Target.toSocket sock.id, payload := {} }]
  (res.1, db1, evs)

/-- `handleDisconnection`: run `cleanupUserData` **first**, persist "offline",
broadcast the global `user_offline`, then read the registry entry again for
the per-room loop (for a disconnect of the currently registered socket the
entry is already gone, so the loop sees nothing). The transport removes the
disconnected socket from every adapter room. -/
def handleDisconnection (st : GatewayState) (db : Db) (sock : Socket) :
    GatewayState × Db × List Event :=
  let st1 := cleanupUserData sock.userId sock.id st
  let db1 := setPresence db sock.userId false
  let roomEvs :=
    match mget sock.userId st1.onlineUsers with
    | some ud =>
        ud.rooms.map (fun r =>
          ({ name := "user_offline"
             target := .toRoomExceptSelf r sock.id
             payload := { userId := some sock.userId, roomId := some r } } : Event))
    | none => []
  let st2 := { st1 with ioRooms := st1.ioRooms.map (fun p => (p.1, sdel sock.id p.2)) }
  (st2, db1, broadcastUserStatus sock.userId false :: roomEvs)

/-- `handleJoinRoom`: validate the room id, authorize via
`roomService.getRoomById` (a thrown error reaches the catch block, which
emits a single `error`), join the adapter room, add the room to the registry
entry's room set, emit `user_joined` to the room and `room_joined` to the
requester, then fetch the history page (`limit: 50`) and emit it reversed as
`room_messages`; a history fetch failure lands in the same catch block after
the earlier emissions already happened. -/
def handleJoinRoom (st : GatewayState) (db : Db) (sock : Socket)
    (roomId : Option String) : GatewayState × Db × List Event :=
  if optStrFalsy roomId then (st, db, [errEvent sock.id])
  else
    let rid := roomId.getD ""
    match getRoomById db rid sock.userId with
    | .error _ => (st, db, [errEvent sock.id])
    | .ok _room =>
      let st1 := { st with
        ioRooms := ioJoin sock.id rid st.ioRooms
        onlineUsers := madjust sock.userId
          (fun e => { e with rooms := sadd rid e.rooms }) st.onlineUsers }
      let evJoined : Event :=
        { name := "user_joined", target := .toRoomExceptSelf rid sock.id
          payload := { userId := some sock.userId, roomId := some rid } }
      let evRoomJoined : Event :=
        { name := "room_joined", target := .toSocket sock.id
          payload := { roomId := some rid } }
      match getRoomMessages db rid sock.userId 50 with
      | .ok (msgs, _hasMore) =>
          let evMsgs : Event :=
            { name := "room_messages", target := .toSocket sock.id
              payload := { roomId := some rid, mids := msgs.reverse.map MessageDoc.mid } }
          (st1, db, [evJoined, evRoomJoined, evMsgs])
      | .error _ => (st1, db, [evJoined, evRoomJoined, errEvent sock.id])

/-- `handleLeaveRoom`: validate, check the room exists, leave the adapter
room, drop it from the registry entry's room set, fix up the room typing set
(announcing `typing_stop` only when other typists remain), and emit
`user_left` / `room_left`. -/
def handleLeaveRoom (st : GatewayState) (db : Db) (sock : Socket)
    (roomId : Option String) : GatewayState × Db × List Event :=
  if optStrFalsy roomId then (st, db, [errEvent sock.id])
  else
    let rid := roomId.getD ""
    match mget rid db.rooms with
    | none => (st, db, [errEvent sock.id])
    | some _ =>
      let st1 := { st with
        ioRooms := ioLeave sock.id rid st.ioRooms
        onlineUsers := madjust sock.userId
          (fun e => { e with rooms := sdel rid e.rooms }) st.onlineUsers }
      let tRes : GatewayState × List Event :=
        match mget rid st1.typingUsers with
        | some s =>
            let s' := sdel sock.userId s
            if s'.isEmpty then
              ({ st1 with typingUsers := mdel rid st1.typingUsers }, ([] : List Event))
            else
              ({ st1 with typingUsers := mset rid s' st1.typingUsers },
                [({ name := "typing_stop", target := .toRoomExceptSelf rid sock.id
                    payload := { userId := some sock.userId, roomId := some rid } } : Event)])
        | none => (st1, [])
      let st2 := tRes.1
      let typingEvs := tRes.2
      let evLeft : Event :=
        { name := "user_left", target := .toRoomExceptSelf rid sock.id
          payload := { userId := some sock.userId, roomId := some rid } }
      let evRoomLeft : Event :=
        { name := "room_left", target := .toSocket sock.id
          payload := { roomId := some rid } }
      (st2, db, typingEvs ++ [evLeft, evRoomLeft])

/-- Payload of the `send_message` inbound event. -/
structure SendMsgData where
  roomId : Option String := none
  content : Option String := none
  mtype : String := "text"
  replyTo : Option Nat := none
  tempId : Option String := none
deriving DecidableEq, Repr

/-- The `createMessage` argument record built by `handleSendMessage`. -/
def roomMsgArgs (sock : Socket) (d : SendMsgData) : CreateArgs :=
  { sender := sock.userId
    room := d.roomId
    content := jsTrim (d.content.getD "")
    mtype := d.mtype
    isPrivate := false
    replyTo := d.replyTo }

/-- `handleSendMessage`: validate presence of room id and non-blank content,
delegate to `createMessage` (one `error` to the sender on a thrown failure),
then fan out `message_received` to the room minus the sender, ack the sender
with `message_sent` carrying the client `tempId` verbatim, and clear the
sender's room typing session (emitting `typing_stop`) if one existed. -/
def handleSendMessage (st : GatewayState) (db : Db) (sock : Socket)
    (d : SendMsgData) : GatewayState × Db × List Event :=
  if optStrFalsy d.roomId || optStrFalsy d.content ||
      decide (jsTrim (d.content.getD "") = "") then
    (st, db, [errEvent sock.id])
  else
    let rid := d.roomId.getD ""
    match createMessage db (roomMsgArgs sock d) with
    | (db', .error _) => (st, db', [errEvent sock.id])
    | (db', .ok m) =>
      let evRecv : Event :=
        { name := "message_received", target := .toRoomExceptSelf rid sock.id
          payload := { userId := some sock.userId, roomId := some rid, mids := [m.mid] } }
      let evSent : Event :=
        { name := "message_sent", target := .toSocket sock.id
          payload := { tempId := d.tempId, roomId := some rid, mids := [m.mid] } }
      match mget rid st.typingUsers with
      | some s =>
          if sock.userId ∈ s then
            let st' := { st with typingUsers := mset rid (sdel sock.userId s) st.typingUsers }
            (st', db',
              [evRecv, evSent,
                { name := "typing_stop", target := .toRoomExceptSelf rid sock.id
                  payload := { userId := some sock.userId, roomId := some rid } }])
          else (st, db', [evRecv, evSent])
      | none => (st, db', [evRecv, evSent])

/-- Payload of the `send_private_message` inbound event. -/
structure PrivMsgData where
  recipientId : Option String := none
  content : Option String := none
  mtype : String := "text"
  replyTo : Option Nat := none
  tempId : Option String := none
deriving DecidableEq, Repr

/-- The `createMessage` argument record built by `handleSendPrivateMessage`. -/
def privMsgArgs (sock : Socket) (d : PrivMsgData) : CreateArgs :=
  { sender := sock.userId
    recipient := d.recipientId
    content := jsTrim (d.content.getD "")
    mtype := d.mtype
    isPrivate := true
    replyTo := d.replyTo }

/-- `handleSendPrivateMessage`: validate, reject self-sends, delegate to
`createMessage`; on success deliver `private_message_received` **only when a
registry entry for the recipient exists**, always ack the sender with
`private_message_sent`, and clear any typing session for the conversation
(emitting `typing_stop` to the recipient when online). -/
def handleSendPrivateMessage (st : GatewayState) (db : Db) (sock : Socket)
    (d : PrivMsgData) : GatewayState × Db × List Event :=
  if optStrFalsy d.recipientId || optStrFalsy d.content ||
      decide (jsTrim (d.content.getD "") = "") then
    (st, db, [errEvent sock.id])
  else if d.recipientId = some sock.userId then
    (st, db, [errEvent sock.id])
  else
    let rcp := d.recipientId.getD ""
    match createMessage db (privMsgArgs sock d) with
    | (db', .error _) => (st, db', [errEvent sock.id])
    | (db', .ok m) =>
      let recipientData := mget rcp st.onlineUsers
      let recvEvs : List Event :=
        match recipientData with
        | some rd =>
            [{ name := "private_message_received", target := .toSocket rd.socketId
               payload := { userId := some sock.userId, mids := [m.mid] } }]
        | none => []
      let evSent : Event :=
        { name := "private_message_sent", target := .toSocket sock.id
          payload := { tempId := d.tempId, mids := [m.mid] } }
      let key := conversationKey sock.userId rcp
      if (mget key st.privateTyping).isSome then
        let st' := { st with privateTyping := mdel key st.privateTyping }
        let stopEvs : List Event :=
          match recipientData with
          | some rd =>
              [{ name := "typing_stop", target := .toSocket rd.socketId
                 payload := { userId := some sock.userId } }]
          | none => []
        (st', db', recvEvs ++ [evSent] ++ stopEvs)
      else (st, db', recvEvs ++ [evSent])

/-- Payload of the `typing_start` / `typing_stop` inbound events. -/
structure TypingEvtData where
  roomId : Option String := none
  isPrivate : Bool := false
  recipientId : Option String := none
deriving DecidableEq, Repr

/-- `handleTypingStart` at wall-clock `now`: private scope inserts/refreshes
the conversation session and notifies a connected recipient; room scope adds
the user to the room's typing set and notifies the room. -/
def handleTypingStart (st : GatewayState) (sock : Socket) (d : TypingEvtData)
    (now : Nat) : GatewayState × List Event :=
  if d.isPrivate && !optStrFalsy d.recipientId then
    let rcp := d.recipientId.getD ""
    let key := conversationKey sock.userId rcp
    let td : TypingData :=
      { userId := sock.userId, username := sock.username, startTime := now }
    let st' := { st with privateTyping := mset key td st.privateTyping }
    let evs : List Event :=
      match mget rcp st.onlineUsers with
      | some rd =>
          [{ name := "typing_start", target := .toSocket rd.socketId
             payload := { userId := some sock.userId } }]
      | none => []
    (st', evs)
  else if !optStrFalsy d.roomId then
    let rid := d.roomId.getD ""
    let s := (mget rid st.typingUsers).getD []
    let st' := { st with typingUsers := mset rid (sadd sock.userId s) st.typingUsers }
    (st', [{ name := "typing_start", target := .toRoomExceptSelf rid sock.id
             payload := { userId := some sock.userId, roomId := some rid } }])
  else (st, [])

/-- `handleTypingStop`: private scope deletes the conversation key
unconditionally and emits `typing_stop` whenever the recipient is online;
room scope acts only when the room has a typing entry at all, and then emits
`typing_stop` regardless of whether the caller was in the set. -/
def handleTypingStop (st : GatewayState) (sock : Socket) (d : TypingEvtData) :
    GatewayState × List Event :=
  if d.isPrivate && !optStrFalsy d.recipientId then
    let rcp := d.recipientId.getD ""
    let key := conversationKey sock.userId rcp
    let st' := { st with privateTyping := mdel key st.privateTyping }
    let evs : List Event :=
      match mget rcp st.onlineUsers with
      | some rd =>
          [{ name := "typing_stop", target := .toSocket rd.socketId
             payload := { userId := some sock.userId } }]
      | none => []
    (st', evs)
  else if !optStrFalsy d.roomId then
    let rid := d.roomId.getD ""
    match mget rid st.typingUsers with
    | some s =>
        let s' := sdel sock.userId s
        let tu := if s'.isEmpty then mdel rid st.typingUsers
                  else mset rid s' st.typingUsers
        ({ st with typingUsers := tu },
          [{ name := "typing_stop", target := .toRoomExceptSelf rid sock.id
             payload := { userId := some sock.userId, roomId := some rid } }])
    | none => (st, [])
  else (st, [])

/-- `TYPING_TIMEOUT` (milliseconds). -/
def typingTimeout : Nat := 10000

/-- `cleanupTypingIndicators` run at wall-clock `now`: prune empty room
typing sets and delete every private session strictly older than the
timeout. The source performs no `emit` call here, so the event list is
always empty. -/
def cleanupTypingIndicators (now : Nat) (st : GatewayState) :
    GatewayState × List Event :=
  ({ st with
     typingUsers := st.typingUsers.filter (fun p => !p.2.isEmpty)
     privateTyping :=
       st.privateTyping.filter (fun p => !(decide (now - p.2.startTime > typingTimeout))) },
   [])

/-! ## The event loop -/

/-- One inbound operation of the gateway. -/
inductive GOp where
  | connect (sock : Socket)
  | disconnect (sock : Socket)
  | joinRoom (sock : Socket) (roomId : Option String)
  | leaveRoom (sock : Socket) (roomId : Option String)
  | sendMessage (sock : Socket) (d : SendMsgData)
  | sendPrivate (sock : Socket) (d : PrivMsgData)
  | typingStart (sock : Socket) (d : TypingEvtData)
  | typingStop (sock : Socket) (d : TypingEvtData)
  | sweep (now : Nat)
deriving Repr

/-- Process one inbound operation (events discarded). -/
def step (s : GatewayState × Db) (op : GOp) : GatewayState × Db :=
  match op with
  | .connect sock => let r := handleConnection s.1 s.2 sock; (r.1, r.2.1)
  | .disconnect sock => let r := handleDisconnection s.1 s.2 sock; (r.1, r.2.1)
  | .joinRoom sock rid => let r := handleJoinRoom s.1 s.2 sock rid; (r.1, r.2.1)
  | .leaveRoom sock rid => let r := handleLeaveRoom s.1 s.2 sock rid; (r.1, r.2.1)
  | .sendMessage sock d => let r := handleSendMessage s.1 s.2 sock d; (r.1, r.2.1)
  | .sendPrivate sock d => let r := handleSendPrivateMessage s.1 s.2 sock d; (r.1, r.2.1)
  | .typingStart sock d => ((handleTypingStart s.1 sock d s.2.now).1, s.2)
  | .typingStop sock d => ((handleTypingStop s.1 sock d).1, s.2)
  | .sweep now => ((cleanupTypingIndicators now s.1).1, s.2)

/-- Run a sequence of inbound operations from the empty gateway state. -/
def run (db0 : Db) (ops : List GOp) : GatewayState × Db :=
  ops.foldl step (initialState, db0)

/-! ## Concrete fixtures used by witnesses and counterexamples -/

def wSockU : Socket := ⟨"sU", "u", "uu", ""⟩

def wSockStale : Socket := ⟨"sOld", "u", "uu", ""⟩

def wUser : UserDoc := ⟨"uu", "", true, 0, []⟩

def wRoom : RoomDoc := ⟨"room one", true, "public", ["u", "a", "b"], [], "u", false, 0, 0, 0⟩

def wDb : Db := ⟨[("u", wUser), ("a", wUser), ("b", wUser)], [("r1", wRoom)], [], 1, 5⟩

def wEntry (sid : String) : ConnEntry := ⟨sid, "x", "", 0, ["r1"]⟩

def wSt : GatewayState :=
  ⟨[("u", wEntry "sU"), ("a", wEntry "sA"), ("b", wEntry "sB")], [], [],
    [("r1", ["sU", "sA", "sB"])]⟩

def wMsgData : SendMsgData := { roomId := some "r1", content := some " hi ", tempId := some "t-9" }

def wPrivData : PrivMsgData := { recipientId := some "a", content := some "yo", tempId := some "t1" }

def wStStale : GatewayState := { wSt with onlineUsers := [("u", wEntry "sNew")] }

def wTd : TypingData := ⟨"u", "uu", 0⟩

def wStTyping : GatewayState := { wSt with privateTyping := [("a:u", wTd)] }

def wBadReply : SendMsgData := { roomId := some "r1", content := some "hi", replyTo := some 99 }

def wMsg (i : Nat) : MessageDoc := ⟨i, "u", some "r1", none, "m", "text", false, none, false, i⟩

def wMsgs51 : List MessageDoc := (List.range 51).map (fun i => wMsg (i + 1))

def wDb51 : Db := { wDb with messages := wMsgs51 }

def wEmptyMsg : SendMsgData := { roomId := some "r1", content := some "   " }

def wStopRoom : TypingEvtData := { roomId := some "r9" }

def wStopPriv : TypingEvtData := { isPrivate := true, recipientId := some "a" }

def wSockN : Socket := ⟨"sN", "n", "nn", ""⟩

def wDbJoin : Db := { wDb with users := ("n", wUser) :: wDb.users }

def wPrivSelf : PrivMsgData := { recipientId := some "u", content := some "x" }

def wStRoomTyping : GatewayState := { wSt with typingUsers := [("r1", ["b"])] }

def wStopRoomR1 : TypingEvtData := { roomId := some "r1" }

def wTdB : TypingData := ⟨"b", "bb", 0⟩

def wStC10 : GatewayState :=
  ⟨[("u", wEntry "sU"), ("a", wEntry "sA")], [("r1", ["u", "a"])],
    [("a:u", wTd), ("b:c", wTdB)], [("r1", ["sU", "sA"])]⟩

/-! ## Lemmas about the map and set helpers -/

theorem mget_mset_self {β : Type} (k : String) (v : β) (l : List (String × β)) :
    mget k (mset k v l) = some v := by
  induction l with
  | nil => simp [mget, mset]
  | cons p rest ih =>
    by_cases h : p.1 = k
    · simp [mset, h, mget]
    · simp [mset, h, mget, ih]

theorem mget_mem {β : Type} {k : String} {v : β} {l : List (String × β)}
    (h : mget k l = some v) : (k, v) ∈ l := by
  induction l with
  | nil => simp [mget] at h
  | cons p rest ih =>
    by_cases hk : p.1 = k
    · rw [show p = (p.1, p.2) from rfl] at h ⊢
      simp [mget, hk] at h
      simp [hk, h]
    · rw [show p = (p.1, p.2) from rfl] at h
      simp [mget, hk] at h
      exact List.mem_cons_of_mem _ (ih h)

theorem keys_madjust {β : Type} (k : String) (f : β → β) (l : List (String × β)) :
    (madjust k f l).map Prod.fst = l.map Prod.fst := by
  induction l with
  | nil => simp [madjust]
  | cons p rest ih =>
    by_cases h : p.1 = k
    · simp [madjust, h]
    · simp [madjust, h, ih]

theorem keys_mset {β : Type} (k : String) (v : β) (l : List (String × β)) :
    (mset k v l).map Prod.fst =
      if k ∈ l.map Prod.fst then l.map Prod.fst else l.map Prod.fst ++ [k] := by
  induction l with
  | nil => simp [mset]
  | cons p rest ih =>
    by_cases hk : p.1 = k
    · simp [mset, hk]
    · have hne : ¬k = p.1 := fun hc => hk hc.symm
      by_cases hmem : k ∈ rest.map Prod.fst
      · simp [mset, hk, hmem, hne, ih]
      · simp [mset, hk, hmem, hne, ih]

theorem keys_mdel {β : Type} (k : String) (l : List (String × β)) :
    (mdel k l).map Prod.fst ⊆ l.map Prod.fst := by
  induction l with
  | nil => simp [mdel]
  | cons p rest ih =>
    by_cases hk : p.1 = k
    · simp only [mdel, hk, if_pos, List.map_cons]
      exact List.subset_cons_of_subset _ (List.Subset.refl _)
    · rw [show mdel k (p :: rest) = p :: mdel k rest by simp [mdel, hk]]
      rw [List.map_cons, List.map_cons]
      exact List.cons_subset_cons _ ih

theorem keysNodup_mset {β : Type} (k : String) (v : β) {l : List (String × β)}
    (h : keysNodup l) : keysNodup (mset k v l) := by
  unfold keysNodup at h ⊢
  rw [keys_mset]
  by_cases hmem : k ∈ l.map Prod.fst
  · simpa [hmem] using h
  · simp only [hmem, if_neg, ite_false]
    rw [List.nodup_append]
    exact ⟨h, List.nodup_singleton k, by simpa [List.disjoint_singleton] using hmem⟩

theorem keysNodup_mdel {β : Type} (k : String) {l : List (String × β)}
    (h : keysNodup l) : keysNodup (mdel k l) := by
  unfold keysNodup at h ⊢
  induction l with
  | nil => simp [mdel]
  | cons p rest ih =>
    rw [List.map_cons, List.nodup_cons] at h
    by_cases hk : p.1 = k
    · simpa [mdel, hk] using h.2
    · rw [show mdel k (p :: rest) = p :: mdel k rest by simp [mdel, hk]]
      rw [List.map_cons, List.nodup_cons]
      exact ⟨fun hc => h.1 (keys_mdel k rest hc), ih h.2⟩

theorem mget_eq_none_of_not_mem_keys {β : Type} {k : String} {l : List (String × β)}
    (h : k ∉ l.map Prod.fst) : mget k l = none := by
  induction l with
  | nil => simp [mget]
  | cons p rest ih =>
    rw [List.map_cons] at h
    have h1 : p.1 ≠ k := fun hc => h (by rw [hc]; exact List.mem_cons_self _ _)
    have h2 : k ∉ rest.map Prod.fst := fun hc => h (List.mem_cons_of_mem _ hc)
    simp [mget, h1, ih h2]

theorem not_mem_keys_mdel {β : Type} (k : String) {l : List (String × β)}
    (h : keysNodup l) : k ∉ (mdel k l).map Prod.fst := by
  unfold keysNodup at h
  induction l with
  | nil => simp [mdel]
  | cons p rest ih =>
    rw [List.map_cons, List.nodup_cons] at h
    by_cases hk : p.1 = k
    · simp only [mdel, hk, if_pos]
      rw [← hk]
      exact h.1
    · rw [show mdel k (p :: rest) = p :: mdel k rest by simp [mdel, hk]]
      rw [List.map_cons]
      intro hc
      rcases List.mem_cons.mp hc with hc | hc
      · exact hk hc.symm
      · exact ih h.2 hc

theorem mget_mdel_self {β : Type} (k : String) {l : List (String × β)}
    (h : keysNodup l) : mget k (mdel k l) = none :=
  mget_eq_none_of_not_mem_keys (not_mem_keys_mdel k h)

theorem mdel_of_not_mem_keys {β : Type} (k : String) {l : List (String × β)}
    (h : k ∉ l.map Prod.fst) : mdel k l = l := by
  induction l with
  | nil => simp [mdel]
  | cons p rest ih =>
    rw [List.map_cons] at h
    have h1 : p.1 ≠ k := fun hc => h (by rw [hc]; exact List.mem_cons_self _ _)
    have h2 : k ∉ rest.map Prod.fst := fun hc => h (List.mem_cons_of_mem _ hc)
    simp [mdel, h1, ih h2]

theorem mdel_idem {β : Type} (k : String) {l : List (String × β)}
    (h : keysNodup l) : mdel k (mdel k l) = mdel k l :=
  mdel_of_not_mem_keys k (not_mem_keys_mdel k h)

theorem mset_mset_same {β : Type} (k : String) (v : β) (l : List (String × β)) :
    mset k v (mset k v l) = mset k v l := by
  induction l with
  | nil => simp [mset]
  | cons p rest ih =>
    by_cases hk : p.1 = k
    · simp [mset, hk]
    · simp [mset, hk, ih]

theorem mget_madjust {β : Type} (k u : String) (f : β → β) (l : List (String × β)) :
    mget u (madjust k f l) = if k = u then (mget u l).map f else mget u l := by
  induction l with
  | nil => simp [madjust, mget]
  | cons p rest ih =>
    by_cases hk : p.1 = k
    · by_cases hu : k = u
      · simp [madjust, hk, mget, hu, hk ▸ hu]
      · have hpu : ¬p.1 = u := fun hc => hu (hk ▸ hc)
        simp [madjust, hk, mget, hu, hpu]
    · by_cases hpu : p.1 = u
      · have hku : ¬k = u := fun hc => hk (by rw [hc, hpu])
        have huk : ¬u = k := fun hc => hku hc.symm
        simp [madjust, hk, mget, hpu, hku, huk]
      · simp [madjust, hk, mget, hpu, ih]

theorem mget_mdel_ne {β : Type} {k u : String} (h : k ≠ u) (l : List (String × β)) :
    mget u (mdel k l) = mget u l := by
  have hku : ¬k = u := h
  have huk : ¬u = k := fun hc => h hc.symm
  induction l with
  | nil => simp [mdel]
  | cons p rest ih =>
    by_cases hk : p.1 = k
    · have hpu : ¬p.1 = u := fun hc => h (hk ▸ hc)
      simp [mdel, hk, mget, hpu, hku, huk]
    · by_cases hpu : p.1 = u
      · simp [mdel, hk, mget, hpu, hku, huk]
      · simp [mdel, hk, mget, hpu, ih]

theorem sdel_of_not_mem {x : String} {s : List String} (h : x ∉ s) :
    sdel x s = s := by
  induction s with
  | nil => simp [sdel]
  | cons y rest ih =>
    rw [List.mem_cons] at h
    have h1 : y ≠ x := fun hc => h (Or.inl hc.symm)
    have h2 : x ∉ rest := fun hc => h (Or.inr hc)
    simp [sdel, h1, ih h2]

theorem not_mem_sdel {x : String} {s : List String} (h : s.Nodup) :
    x ∉ sdel x s := by
  induction s with
  | nil => simp [sdel]
  | cons y rest ih =>
    rw [List.nodup_cons] at h
    by_cases hy : y = x
    · simp only [sdel, hy, if_pos]
      rw [← hy]
      exact h.1
    · rw [show sdel x (y :: rest) = y :: sdel x rest by simp [sdel, hy]]
      intro hc
      rcases List.mem_cons.mp hc with hc | hc
      · exact hy hc.symm
      · exact ih h.2 hc

/-! ## Per-handler facts about the connection registry -/

theorem cleanupUserData_onlineUsers (uid sid : String) (st : GatewayState) :
    (cleanupUserData uid sid st).onlineUsers =
      match mget uid st.onlineUsers with
      | some e => if e.socketId = sid then mdel uid st.onlineUsers else st.onlineUsers
      | none => st.onlineUsers := rfl

theorem cleanupRoomTyping_not_mem (uid : String) (tu : List (String × List String))
    (hWF : ∀ p ∈ tu, p.2.Nodup) :
    ∀ r s, mget r (cleanupRoomTyping uid tu) = some s → uid ∉ s := by
  induction tu with
  | nil => intro r s h; simp [cleanupRoomTyping, mget] at h
  | cons p rest ih =>
    intro r s h
    have hWFrest : ∀ q ∈ rest, q.2.Nodup := fun q hq => hWF q (List.mem_cons_of_mem _ hq)
    have hnd : p.2.Nodup := hWF p (List.mem_cons_self _ _)
    rcases p with ⟨rid0, s0⟩
    by_cases hmem : uid ∈ s0
    · rw [show cleanupRoomTyping uid ((rid0, s0) :: rest) =
          (if (sdel uid s0).isEmpty then cleanupRoomTyping uid rest
           else (rid0, sdel uid s0) :: cleanupRoomTyping uid rest) by
        simp [cleanupRoomTyping, hmem]] at h
      by_cases hemp : (sdel uid s0).isEmpty
      · rw [if_pos hemp] at h
        exact ih hWFrest r s h
      · rw [if_neg hemp] at h
        by_cases hr : rid0 = r
        · rw [show mget r ((rid0, sdel uid s0) :: cleanupRoomTyping uid rest) =
              some (sdel uid s0) by simp [mget, hr]] at h
          rw [← Option.some.inj h]
          exact not_mem_sdel hnd
        · rw [show mget r ((rid0, sdel uid s0) :: cleanupRoomTyping uid rest) =
              mget r (cleanupRoomTyping uid rest) by simp [mget, hr]] at h
          exact ih hWFrest r s h
    · rw [show cleanupRoomTyping uid ((rid0, s0) :: rest) =
          (rid0, s0) :: cleanupRoomTyping uid rest by simp [cleanupRoomTyping, hmem]] at h
      by_cases hr : rid0 = r
      · rw [show mget r ((rid0, s0) :: cleanupRoomTyping uid rest) = some s0 by
          simp [mget, hr]] at h
        rw [← Option.some.inj h]
        exact hmem
      · rw [show mget r ((rid0, s0) :: cleanupRoomTyping uid rest) =
            mget r (cleanupRoomTyping uid rest) by simp [mget, hr]] at h
        exact ih hWFrest r s h

theorem joinPersistedRooms_onlineUsers_keys (sock : Socket) (rs : List String)
    (st : GatewayState) :
    ((joinPersistedRooms sock rs st).1.onlineUsers).map Prod.fst =
      st.onlineUsers.map Prod.fst := by
  induction rs generalizing st with
  | nil => rfl
  | cons rid rest ih =>
    simp only [joinPersistedRooms]
    rw [ih]
    exact keys_madjust _ _ _

theorem joinPersistedRooms_socketId (sock : Socket) (rs : List String)
    (st : GatewayState) (u : String) :
    (mget u (joinPersistedRooms sock rs st).1.onlineUsers).map ConnEntry.socketId =
      (mget u st.onlineUsers).map ConnEntry.socketId := by
  induction rs generalizing st with
  | nil => rfl
  | cons rid rest ih =>
    simp only [joinPersistedRooms]
    rw [ih]
    dsimp only
    rw [mget_madjust]
    by_cases h : sock.userId = u
    · simp only [h, if_pos]
      cases mget u st.onlineUsers <;> rfl
    · simp [h]

theorem handleConnection_onlineUsers_keysNodup (st : GatewayState) (db : Db)
    (sock : Socket) (h : keysNodup st.onlineUsers) :
    keysNodup (handleConnection st db sock).1.onlineUsers := by
  unfold handleConnection
  dsimp only
  unfold keysNodup
  rw [joinPersistedRooms_onlineUsers_keys]
  exact keysNodup_mset _ _ h

theorem handleConnection_socketId (st : GatewayState) (db : Db) (sock : Socket) :
    (mget sock.userId (handleConnection st db sock).1.onlineUsers).map
      ConnEntry.socketId = some sock.id := by
  unfold handleConnection
  dsimp only
  rw [joinPersistedRooms_socketId]
  dsimp only
  rw [mget_mset_self]
  rfl

theorem handleDisconnection_onlineUsers (st : GatewayState) (db : Db) (sock : Socket) :
    (handleDisconnection st db sock).1.onlineUsers =
      (cleanupUserData sock.userId sock.id st).onlineUsers := rfl

theorem handleJoinRoom_onlineUsers_keys (st : GatewayState) (db : Db) (sock : Socket)
    (rid : Option String) :
    ((handleJoinRoom st db sock rid).1.onlineUsers).map Prod.fst =
      st.onlineUsers.map Prod.fst := by
  unfold handleJoinRoom
  split
  · rfl
  · dsimp only
    split
    · rfl
    · split
      · dsimp only; exact keys_madjust _ _ _
      · dsimp only; exact keys_madjust _ _ _

theorem handleLeaveRoom_onlineUsers_keys (st : GatewayState) (db : Db) (sock : Socket)
    (rid : Option String) :
    ((handleLeaveRoom st db sock rid).1.onlineUsers).map Prod.fst =
      st.onlineUsers.map Prod.fst := by
  unfold handleLeaveRoom
  split
  · rfl
  · dsimp only
    split
    · rfl
    · dsimp only
      split
      · split
        · dsimp only; exact keys_madjust _ _ _
        · dsimp only; exact keys_madjust _ _ _
      · dsimp only; exact keys_madjust _ _ _

theorem handleSendMessage_onlineUsers (st : GatewayState) (db : Db) (sock : Socket)
    (d : SendMsgData) :
    (handleSendMessage st db sock d).1.onlineUsers = st.onlineUsers := by
  unfold handleSendMessage
  split
  · rfl
  · split
    · rfl
    · dsimp only
      split
      · split <;> rfl
      · rfl

theorem handleSendPrivateMessage_onlineUsers (st : GatewayState) (db : Db)
    (sock : Socket) (d : PrivMsgData) :
    (handleSendPrivateMessage st db sock d).1.onlineUsers = st.onlineUsers := by
  unfold handleSendPrivateMessage
  split
  · rfl
  · split
    · rfl
    · split
      · rfl
      · dsimp only
        split <;> rfl

theorem handleTypingStart_onlineUsers (st : GatewayState) (sock : Socket)
    (d : TypingEvtData) (now : Nat) :
    (handleTypingStart st sock d now).1.onlineUsers = st.onlineUsers := by
  unfold handleTypingStart
  split
  · rfl
  · split <;> rfl

theorem handleTypingStop_onlineUsers (st : GatewayState) (sock : Socket)
    (d : TypingEvtData) :
    (handleTypingStop st sock d).1.onlineUsers = st.onlineUsers := by
  unfold handleTypingStop
  split
  · rfl
  · split
    · dsimp only
      split <;> rfl
    · rfl

theorem step_onlineUsers_keysNodup (s : GatewayState × Db) (op : GOp)
    (h : keysNodup s.1.onlineUsers) : keysNodup (step s op).1.onlineUsers := by
  cases op with
  | connect sock => exact handleConnection_onlineUsers_keysNodup s.1 s.2 sock h
  | disconnect sock =>
      unfold step
      dsimp only
      rw [handleDisconnection_onlineUsers, cleanupUserData_onlineUsers]
      split
      · split
        · exact keysNodup_mdel _ h
        · exact h
      · exact h
  | joinRoom sock rid =>
      unfold step keysNodup
      dsimp only
      rw [handleJoinRoom_onlineUsers_keys]
      exact h
  | leaveRoom sock rid =>
      unfold step keysNodup
      dsimp only
      rw [handleLeaveRoom_onlineUsers_keys]
      exact h
  | sendMessage sock d =>
      unfold step
      dsimp only
      rw [handleSendMessage_onlineUsers]
      exact h
  | sendPrivate sock d =>
      unfold step
      dsimp only
      rw [handleSendPrivateMessage_onlineUsers]
      exact h
  | typingStart sock d =>
      unfold step
      dsimp only
      rw [handleTypingStart_onlineUsers]
      exact h
  | typingStop sock d =>
      unfold step
      dsimp only
      rw [handleTypingStop_onlineUsers]
      exact h
  | sweep now =>
      exact h

theorem run_onlineUsers_keysNodup (db0 : Db) (ops : List GOp) :
    keysNodup (run db0 ops).1.onlineUsers := by
  unfold run
  have hgen : ∀ s : GatewayState × Db, keysNodup s.1.onlineUsers →
      keysNodup (ops.foldl step s).1.onlineUsers := by
    induction ops with
    | nil => intro s h; exact h
    | cons op rest ih =>
        intro s h
        exact ih _ (step_onlineUsers_keysNodup s op h)
  exact hgen (initialState, db0) (by simp [initialState, keysNodup])

/-! ## Claim theorems -/

/-- C1: for every successful room message send, every socket joined to the
adapter room other than the sender's receives exactly one `message_received`
event; the sender receives exactly one `message_sent` acknowledgment, which
carries the client-supplied `tempId` verbatim, and zero `message_received`
events. -/
theorem room_fanout_exclusion (st : GatewayState) (db : Db) (sock : Socket)
    (d : SendMsgData) (rid c : String)
    (hr : d.roomId = some rid) (hrne : rid ≠ "")
    (hc : d.content = some c) (hcne : jsTrim c ≠ "")
    (hok : ((createMessage db (roomMsgArgs sock d)).2).isOk = true) :
    (∀ s, s ∈ (mget rid st.ioRooms).getD [] → s ≠ sock.id →
        countDeliveries st (handleSendMessage st db sock d).2.2 "message_received" s = 1) ∧
    countDeliveries st (handleSendMessage st db sock d).2.2 "message_received" sock.id = 0 ∧
    countDeliveries st (handleSendMessage st db sock d).2.2 "message_sent" sock.id = 1 ∧
    (∀ e ∈ (handleSendMessage st db sock d).2.2, e.name = "message_sent" →
        e.payload.tempId = d.tempId) := by
  have hcne0 : c ≠ "" := fun h0 => hcne (by rw [h0]; rfl)
  rcases hres : createMessage db (roomMsgArgs sock d) with ⟨db', res⟩
  cases res with
  | error e => rw [hres] at hok; simp [Except.isOk, Except.toBool] at hok
  | ok m =>
    simp only [handleSendMessage, hres, hr, hc, Option.getD_some]
    rw [if_neg (by simp [optStrFalsy, hrne, hcne, hcne0])]
    cases hmge : mget rid st.typingUsers with
    | none =>
        refine ⟨fun s hs hne => ?_, ?_, ?_, ?_⟩
        · simp [countDeliveries, deliversTo, hs, hne]
        · simp [countDeliveries, deliversTo]
        · simp [countDeliveries, deliversTo]
        · simp
    | some ts =>
        by_cases hmem : sock.userId ∈ ts
        · simp only [hmem, if_pos]
          refine ⟨fun s hs hne => ?_, ?_, ?_, ?_⟩
          · simp [countDeliveries, deliversTo, hs, hne]
          · simp [countDeliveries, deliversTo]
          · simp [countDeliveries, deliversTo]
          · simp
        · simp only [hmem, if_neg]
          refine ⟨fun s hs hne => ?_, ?_, ?_, ?_⟩
          · simp [countDeliveries, deliversTo, hs, hne]
          · simp [countDeliveries, deliversTo]
          · simp [countDeliveries, deliversTo]
          · simp

/-- C1 witness: in a room with live sockets sU (sender), sA, sB, a concrete
successful send delivers one `message_received` to sA, none to the sender,
and one `message_sent` ack to the sender. -/
theorem room_fanout_exclusion_witness :
    countDeliveries wSt (handleSendMessage wSt wDb wSockU wMsgData).2.2
      "message_received" "sA" = 1 ∧
    countDeliveries wSt (handleSendMessage wSt wDb wSockU wMsgData).2.2
      "message_received" "sU" = 0 ∧
    countDeliveries wSt (handleSendMessage wSt wDb wSockU wMsgData).2.2
      "message_sent" "sU" = 1 :=
  ⟨(room_fanout_exclusion wSt wDb wSockU wMsgData "r1" " hi " rfl (by decide) rfl
      (by decide) (by decide)).1 "sA" (by decide) (by decide),
   (room_fanout_exclusion wSt wDb wSockU wMsgData "r1" " hi " rfl (by decide) rfl
      (by decide) (by decide)).2.1,
   (room_fanout_exclusion wSt wDb wSockU wMsgData "r1" " hi " rfl (by decide) rfl
      (by decide) (by decide)).2.2.1⟩

/-- C2: for every successful private message send, a
`private_message_received` event is emitted (to the recipient's registered
socket) exactly when the recipient has a live registry entry at send time,
and the sender always receives exactly one `private_message_sent`
acknowledgment. -/
theorem private_delivery_gating (st : GatewayState) (db : Db) (sock : Socket)
    (d : PrivMsgData) (rcp c : String)
    (hr : d.recipientId = some rcp) (hrne : rcp ≠ "")
    (hc : d.content = some c) (hcne : jsTrim c ≠ "")
    (hself : rcp ≠ sock.userId)
    (hok : ((createMessage db (privMsgArgs sock d)).2).isOk = true) :
    ((handleSendPrivateMessage st db sock d).2.2.filter
        (fun e => decide (e.name = "private_message_received"))).length =
      (if (mget rcp st.onlineUsers).isSome then 1 else 0) ∧
    (∀ e ∈ (handleSendPrivateMessage st db sock d).2.2,
        e.name = "private_message_received" →
        ∃ en, mget rcp st.onlineUsers = some en ∧ e.target = Target.toSocket en.socketId) ∧
    ((handleSendPrivateMessage st db sock d).2.2.filter
        (fun e => decide (e.name = "private_message_sent") &&
          deliversTo st e sock.id)).length = 1 := by
  have hcne0 : c ≠ "" := fun h0 => hcne (by rw [h0]; rfl)
  rcases hres : createMessage db (privMsgArgs sock d) with ⟨db', res⟩
  cases res with
  | error e => rw [hres] at hok; simp [Except.isOk, Except.toBool] at hok
  | ok m =>
    simp only [handleSendPrivateMessage, hres, hr, hc, Option.getD_some]
    rw [if_neg (by simp [optStrFalsy, hrne, hcne, hcne0]), if_neg (by simp [hself])]
    cases hmo : mget rcp st.onlineUsers with
    | none =>
        by_cases hpt : (mget (conversationKey sock.userId rcp) st.privateTyping).isSome
        · simp only [hpt, if_pos]
          refine ⟨?_, ?_, ?_⟩
          · simp
          · simp
          · simp [countDeliveries, deliversTo]
        · simp only [hpt, if_neg]
          refine ⟨?_, ?_, ?_⟩
          · simp
          · simp
          · simp [countDeliveries, deliversTo]
    | some rd =>
        by_cases hpt : (mget (conversationKey sock.userId rcp) st.privateTyping).isSome
        · simp only [hpt, if_pos]
          refine ⟨?_, ?_, ?_⟩
          · simp
          · intro e he hname
            exact ⟨rd, rfl, by
              rcases List.mem_cons.mp he with h1 | h1
              · rw [h1]
              · rcases List.mem_cons.mp h1 with h2 | h2
                · rw [h2] at hname; simp at hname
                · simp at h2; rw [h2] at hname; simp at hname⟩
          · simp [countDeliveries, deliversTo]
        · simp only [hpt, if_neg]
          refine ⟨?_, ?_, ?_⟩
          · simp
          · intro e he hname
            exact ⟨rd, rfl, by
              rcases List.mem_cons.mp he with h1 | h1
              · rw [h1]
              · simp at h1; rw [h1] at hname; simp at hname⟩
          · simp [countDeliveries, deliversTo]

/-- C2 witness: a concrete successful private send to an online recipient
yields exactly one `private_message_received` and one `private_message_sent`
ack to the sender. -/
theorem private_delivery_gating_witness :
    ((handleSendPrivateMessage wSt wDb wSockU wPrivData).2.2.filter
        (fun e => decide (e.name = "private_message_received"))).length =
      (if (mget "a" wSt.onlineUsers).isSome then 1 else 0) ∧
    ((handleSendPrivateMessage wSt wDb wSockU wPrivData).2.2.filter
        (fun e => decide (e.name = "private_message_sent") &&
          deliversTo wSt e wSockU.id)).length = 1 :=
  ⟨(private_delivery_gating wSt wDb wSockU wPrivData "a" "yo" rfl (by decide) rfl
      (by decide) (by decide) (by decide)).1,
   (private_delivery_gating wSt wDb wSockU wPrivData "a" "yo" rfl (by decide) rfl
      (by decide) (by decide) (by decide)).2.2⟩

/-- C3: after any sequence of gateway operations starting from the empty
state, the connection registry holds at most one entry per user identity,
and registering a new connection for a user supersedes any existing entry:
immediately after `handleConnection` the registry maps the user to the new
socket id. -/
theorem single_connection_invariant (db0 : Db) (ops : List GOp) (u : String) :
    (((run db0 ops).1.onlineUsers.map Prod.fst).count u ≤ 1) ∧
    (∀ st db sock,
        (mget sock.userId (handleConnection st db sock).1.onlineUsers).map
          ConnEntry.socketId = some sock.id) :=
  ⟨List.nodup_iff_count_le_one.mp (run_onlineUsers_keysNodup db0 ops) u,
   handleConnection_socketId⟩

/-- C10: `cleanupUserData` removes the registry entry only when its recorded
socket id equals the disconnecting socket's id (so a stale disconnect never
removes the newer connection's entry or its room set, and other users'
entries are untouched), while the user is always dropped from every room
typing set and the user's own private typing sessions are always removed. -/
theorem cleanup_user_data_guard (st : GatewayState) (uid sid : String)
    (hWF : ∀ p ∈ st.typingUsers, p.2.Nodup) :
    ((cleanupUserData uid sid st).onlineUsers =
      match mget uid st.onlineUsers with
      | some e => if e.socketId = sid then mdel uid st.onlineUsers else st.onlineUsers
      | none => st.onlineUsers) ∧
    (∀ v, v ≠ uid → mget v (cleanupUserData uid sid st).onlineUsers =
        mget v st.onlineUsers) ∧
    (∀ r s, mget r (cleanupUserData uid sid st).typingUsers = some s → uid ∉ s) ∧
    (∀ k td, mget k (cleanupUserData uid sid st).privateTyping = some td →
        td.userId ≠ uid) := by
  refine ⟨rfl, ?_, ?_, ?_⟩
  · intro v hv
    rw [cleanupUserData_onlineUsers]
    cases mget uid st.onlineUsers with
    | none => rfl
    | some e =>
        by_cases hs : e.socketId = sid
        · simp only [hs, if_pos]
          exact mget_mdel_ne (fun hc => hv hc.symm) st.onlineUsers
        · simp [hs]
  · exact cleanupRoomTyping_not_mem uid st.typingUsers hWF
  · intro k td h
    have hmem := mget_mem h
    have hf := List.mem_filter.mp hmem
    simpa using hf.2

/-- C10 witness: on a concrete state, the matching disconnect removes the
registry entry, another user's entry is untouched, the user is gone from the
room typing set, and the surviving private typing session belongs to someone
else. -/
theorem cleanup_user_data_guard_witness :
    ((cleanupUserData "u" "sU" wStC10).onlineUsers =
      match mget "u" wStC10.onlineUsers with
      | some e => if e.socketId = "sU" then mdel "u" wStC10.onlineUsers
                  else wStC10.onlineUsers
      | none => wStC10.onlineUsers) ∧
    mget "a" (cleanupUserData "u" "sU" wStC10).onlineUsers =
      mget "a" wStC10.onlineUsers ∧
    ("u" ∉ (["a"] : List String)) ∧
    wTdB.userId ≠ "u" :=
  ⟨(cleanup_user_data_guard wStC10 "u" "sU" (by decide)).1,
   (cleanup_user_data_guard wStC10 "u" "sU" (by decide)).2.1 "a" (by decide),
   (cleanup_user_data_guard wStC10 "u" "sU" (by decide)).2.2.1 "r1" ["a"] (by decide),
   (cleanup_user_data_guard wStC10 "u" "sU" (by decide)).2.2.2 "b:c" wTdB (by decide)⟩

/-- C5 amended: the periodic sweep removes exactly the private typing
sessions strictly older than the 10-second timeout — in particular a session
started at t0 and never explicitly stopped is absent from tracker state
after any sweep run later than t0 + 10s — but it emits no typing_stop
events at all (the source performs no emit in the sweep). -/
theorem private_typing_sweep (st : GatewayState) (now : Nat) (k : String)
    (td : TypingData) :
    ((cleanupTypingIndicators now st).2 = []) ∧
    (∀ p ∈ (cleanupTypingIndicators now st).1.privateTyping,
        now - p.2.startTime ≤ typingTimeout) ∧
    (∀ p ∈ st.privateTyping, now - p.2.startTime ≤ typingTimeout →
        p ∈ (cleanupTypingIndicators now st).1.privateTyping) ∧
    (now > td.startTime + typingTimeout →
        (k, td) ∉ (cleanupTypingIndicators now st).1.privateTyping) := by
  refine ⟨rfl, ?_, ?_, ?_⟩
  · intro p hp
    have hf := (List.mem_filter.mp hp).2
    simp at hf
    omega
  · intro p hp hle
    apply List.mem_filter.mpr
    refine ⟨hp, ?_⟩
    simp
    omega
  · intro hgt hmem
    have hf := (List.mem_filter.mp hmem).2
    simp at hf
    omega

/-- C5 counterexample: a sweep at t=20000 removes the session started at
t=0 yet emits zero events, refuting "emits exactly one typing_stop event
for each removed entry". -/
theorem private_typing_sweep_cex :
    wStTyping.privateTyping = [("a:u", wTd)] ∧
    (cleanupTypingIndicators 20000 wStTyping).1.privateTyping = [] ∧
    (cleanupTypingIndicators 20000 wStTyping).2.length = 0 := by decide

/-- C5 witness: a session aged exactly the timeout survives the sweep, and
an expired one is removed. -/
theorem private_typing_sweep_witness :
    ("a:u", wTd) ∈ (cleanupTypingIndicators 10000 wStTyping).1.privateTyping ∧
    ("a:u", wTd) ∉ (cleanupTypingIndicators 20000 wStTyping).1.privateTyping :=
  ⟨(private_typing_sweep wStTyping 10000 "a:u" wTd).2.2.1 ("a:u", wTd) (by decide)
      (by decide),
   (private_typing_sweep wStTyping 20000 "a:u" wTd).2.2.2 (by decide)⟩

/-- C6: evaluation at the failing input. The disconnecting connection had
joined room r1, but `handleDisconnection` clears the registry entry before
reading its room set, so the only emitted event is the global user_offline
broadcast — no per-room user_offline is emitted. -/
theorem disconnect_per_room_offline_bug :
    (mget "u" wSt.onlineUsers).map ConnEntry.rooms = some ["r1"] ∧
    (handleDisconnection wSt wDb wSockU).2.2 =
      [{ name := "user_offline", target := Target.broadcastAll,
         payload := { userId := some "u" } }] := by decide

/-- C7 amended: `handleDisconnection` always emits exactly one global
user_offline broadcast, regardless of whether the disconnecting handle is
still the currently registered one; only the registry entry removal is
guarded by the socket-id comparison. -/
theorem disconnect_offline_broadcast (st : GatewayState) (db : Db) (sock : Socket)
    (hN : keysNodup st.onlineUsers) :
    (((handleDisconnection st db sock).2.2.filter
        (fun e => decide (e.name = "user_offline") &&
          decide (e.target = Target.broadcastAll))).length = 1) ∧
    (mget sock.userId (handleDisconnection st db sock).1.onlineUsers =
      match mget sock.userId st.onlineUsers with
      | some e => if e.socketId = sock.id then none else some e
      | none => none) := by
  constructor
  · unfold handleDisconnection
    dsimp only
    cases mget sock.userId (cleanupUserData sock.userId sock.id st).onlineUsers with
    | none => simp [broadcastUserStatus]
    | some ud =>
        simp [broadcastUserStatus, List.filter_map, Function.comp]
  · rw [show (handleDisconnection st db sock).1.onlineUsers =
        (cleanupUserData sock.userId sock.id st).onlineUsers from rfl]
    rw [cleanupUserData_onlineUsers]
    cases hm : mget sock.userId st.onlineUsers with
    | none => exact hm
    | some e =>
        by_cases hs : e.socketId = sock.id
        · simp only [hs, if_pos]
          exact mget_mdel_self _ hN
        · simp only [hs, if_neg, ite_false]
          exact hm

/-- C7 counterexample: a stale disconnect — the registered socket is sNew,
the signal is for sOld — still emits the global user_offline broadcast,
refuting "a stale disconnect emits no offline presence event". -/
theorem stale_disconnect_offline_cex :
    (mget "u" wStStale.onlineUsers).map ConnEntry.socketId = some "sNew" ∧
    wSockStale.id = "sOld" ∧
    ((handleDisconnection wStStale wDb wSockStale).2.2.filter
        (fun e => decide (e.name = "user_offline") &&
          decide (e.target = Target.broadcastAll))).length = 1 := by decide

/-- C7 witness: concrete disconnect of the current socket emits one global
offline broadcast and removes the registry entry. -/
theorem disconnect_offline_broadcast_witness :
    (((handleDisconnection wSt wDb wSockU).2.2.filter
        (fun e => decide (e.name = "user_offline") &&
          decide (e.target = Target.broadcastAll))).length = 1) ∧
    (mget "u" (handleDisconnection wSt wDb wSockU).1.onlineUsers =
      match mget "u" wSt.onlineUsers with
      | some e => if e.socketId = "sU" then none else some e
      | none => none) :=
  disconnect_offline_broadcast wSt wDb wSockU (by decide)

/-- C8 counterexample: a private-scope StopTyping with no existing typing
session and an online recipient still emits a typing_stop event, refuting
"silent no-op when no session existed". -/
theorem stop_typing_no_session_cex :
    wSt.privateTyping = [] ∧
    (handleTypingStop wSt wSockU wStopPriv).2 =
      [{ name := "typing_stop", target := Target.toSocket "sA",
         payload := { userId := some "u" } }] := by decide

/-- C8 amended: room-scope StopTyping is a silent no-op (no event, no state
change) exactly when the room has no typing entry at all — proved in both
directions: with no entry the call returns the state unchanged and emits
nothing, and with an entry present a typing_stop is emitted to the room even
if the caller had no session; private-scope StopTyping always deletes the
conversation key and emits typing_stop exactly when the recipient is online,
regardless of whether a session existed; and the second of two consecutive
identical StopTyping calls never changes state (though it may emit a
duplicate event). -/
theorem stop_typing_behavior (st : GatewayState) (sock : Socket) (d : TypingEvtData)
    (hN1 : keysNodup st.privateTyping) (hN2 : keysNodup st.typingUsers)
    (hWF : ∀ p ∈ st.typingUsers, p.2.Nodup) :
    (d.isPrivate = false → ∀ rid, d.roomId = some rid → rid ≠ "" →
        mget rid st.typingUsers = none → handleTypingStop st sock d = (st, [])) ∧
    (d.isPrivate = false → ∀ rid s, d.roomId = some rid → rid ≠ "" →
        mget rid st.typingUsers = some s →
        (handleTypingStop st sock d).2 =
          [{ name := "typing_stop", target := Target.toRoomExceptSelf rid sock.id,
             payload := { userId := some sock.userId, roomId := some rid } }]) ∧
    (∀ rcp, d.isPrivate = true → d.recipientId = some rcp → rcp ≠ "" →
        (((handleTypingStop st sock d).2 ≠ []) ↔
          (mget rcp st.onlineUsers).isSome = true) ∧
        (handleTypingStop st sock d).1.privateTyping =
          mdel (conversationKey sock.userId rcp) st.privateTyping) ∧
    ((handleTypingStop (handleTypingStop st sock d).1 sock d).1 =
        (handleTypingStop st sock d).1) := by
  refine ⟨?_, ?_, ?_, ?_⟩
  · intro h0 rid hr hrne hnone
    unfold handleTypingStop
    rw [if_neg (by simp [h0])]
    rw [if_pos (by simp [optStrFalsy, hr, hrne])]
    simp only [hr, Option.getD_some, hnone]
  · intro h0 rid s hr hrne hsome
    unfold handleTypingStop
    rw [if_neg (by simp [h0])]
    rw [if_pos (by simp [optStrFalsy, hr, hrne])]
    simp only [hr, Option.getD_some, hsome]
  · intro rcp hp hr hrne
    have hbr : (d.isPrivate && !optStrFalsy d.recipientId) = true := by
      simp [optStrFalsy, hp, hr, hrne]
    refine ⟨?_, ?_⟩
    · unfold handleTypingStop
      rw [if_pos hbr]
      dsimp only
      rw [hr]
      cases hmo : mget rcp st.onlineUsers with
      | none => simp [hmo]
      | some rd => simp [hmo]
    · unfold handleTypingStop
      rw [if_pos hbr]
      dsimp only
      rw [hr]
      rfl
  · by_cases hp : (d.isPrivate && !optStrFalsy d.recipientId) = true
    · have h1 : (handleTypingStop st sock d).1 = { st with privateTyping := mdel (conversationKey sock.userId (d.recipientId.getD "")) st.privateTyping } := by
        unfold handleTypingStop
        rw [if_pos hp]
      rw [h1]
      unfold handleTypingStop
      rw [if_pos hp]
      dsimp only
      congr 1
      exact mdel_idem _ hN1
    · by_cases hq : (!optStrFalsy d.roomId) = true
      · rcases hrs : d.roomId with _ | rid
        · rw [hrs] at hq; simp [optStrFalsy] at hq
        · cases hm : mget rid st.typingUsers with
          | none =>
              have h1 : handleTypingStop st sock d = (st, []) := by
                unfold handleTypingStop
                rw [if_neg hp, if_pos hq]
                simp only [hrs, Option.getD_some, hm]
              rw [h1]
              dsimp only
              rw [h1]
          | some s =>
              have hnd : s.Nodup := hWF (rid, s) (mget_mem hm)
              by_cases hemp : (sdel sock.userId s).isEmpty
              · have h1 : (handleTypingStop st sock d).1 =
                    { st with typingUsers := mdel rid st.typingUsers } := by
                  unfold handleTypingStop
                  rw [if_neg hp, if_pos hq]
                  simp only [hrs, Option.getD_some, hm, hemp, if_pos]
                rw [h1]
                unfold handleTypingStop
                rw [if_neg hp, if_pos hq]
                simp only [hrs, Option.getD_some]
                rw [show mget rid (mdel rid st.typingUsers) = none from mget_mdel_self _ hN2]
              · have h1 : (handleTypingStop st sock d).1 =
                    { st with typingUsers := mset rid (sdel sock.userId s) st.typingUsers } := by
                  unfold handleTypingStop
                  rw [if_neg hp, if_pos hq]
                  simp only [hrs, Option.getD_some, hm]
                  rw [if_neg hemp]
                have hns : sock.userId ∉ sdel sock.userId s := not_mem_sdel hnd
                have hss : sdel sock.userId (sdel sock.userId s) = sdel sock.userId s :=
                  sdel_of_not_mem hns
                rw [h1]
                unfold handleTypingStop
                rw [if_neg hp, if_pos hq]
                simp [hrs, mget_mset_self, hss, hemp, mset_mset_same]
      · have h1 : handleTypingStop st sock d = (st, []) := by
          unfold handleTypingStop
          rw [if_neg hp, if_neg hq]
        rw [h1]
        dsimp only
        rw [h1]

/-- C8 witness: concrete instances of the four amended conjuncts — a stop in
a room with no typing entry is a silent no-op; a stop in a room whose typing
entry holds only another user still emits a typing_stop; a private stop
deletes the conversation key; and repeating a stop changes no state. -/
theorem stop_typing_behavior_witness :
    handleTypingStop wSt wSockU wStopRoom = (wSt, []) ∧
    (handleTypingStop wStRoomTyping wSockU wStopRoomR1).2 =
      [{ name := "typing_stop", target := Target.toRoomExceptSelf "r1" "sU",
         payload := { userId := some "u", roomId := some "r1" } }] ∧
    (handleTypingStop wSt wSockU wStopPriv).1.privateTyping =
      mdel (conversationKey "u" "a") wSt.privateTyping ∧
    (handleTypingStop (handleTypingStop wSt wSockU wStopPriv).1 wSockU wStopPriv).1 =
      (handleTypingStop wSt wSockU wStopPriv).1 :=
  ⟨(stop_typing_behavior wSt wSockU wStopRoom (by decide) (by decide) (by decide)).1
      rfl "r9" rfl (by decide) (by decide),
   (stop_typing_behavior wStRoomTyping wSockU wStopRoomR1 (by decide) (by decide)
      (by decide)).2.1 rfl "r1" ["b"] rfl (by decide) (by decide),
   ((stop_typing_behavior wSt wSockU wStopPriv (by decide) (by decide) (by decide)).2.2.1
      "a" rfl rfl (by decide)).2,
   (stop_typing_behavior wSt wSockU wStopPriv (by decide) (by decide) (by decide)).2.2.2⟩

/-- If the room/recipient phase succeeds, the store is either unchanged
(private path) or the cited room's counters were incremented (room path). -/
theorem createMessageRoomStep_db (db : Db) (a : CreateArgs) (su : UserDoc)
    (db1 : Db) (rf cf : Option String)
    (h : createMessageRoomStep db a su = .ok (db1, rf, cf)) :
    db1 = db ∨
    ∃ rid rdoc, a.room = some rid ∧ mget rid db.rooms = some rdoc ∧
      db1 = { db with rooms := mset rid (rdoc.incrementMessageCount db.now) db.rooms } := by
  unfold createMessageRoomStep at h
  split at h
  · rcases hroom : a.room with _ | rid
    · simp [hroom] at h
    · simp only [hroom] at h
      rcases hdoc : mget rid db.rooms with _ | roomDoc
      · simp [hdoc] at h
      · simp only [hdoc] at h
        split at h
        · exact absurd h (by simp)
        · split at h
          · exact absurd h (by simp)
          · split at h
            · exact absurd h (by simp)
            · right
              simp only [Except.ok.injEq, Prod.mk.injEq] at h
              exact ⟨rid, roomDoc, rfl, hdoc, h.1.symm⟩
  · rcases hrcp : a.recipient with _ | rcp
    · simp [hrcp] at h
    · simp only [hrcp] at h
      split at h
      · exact absurd h (by simp)
      · rcases hru : mget rcp db.users with _ | ru
        · simp [hru] at h
        · simp only [hru] at h
          split at h
          · exact absurd h (by simp)
          · split at h
            · exact absurd h (by simp)
            · left
              simp only [Except.ok.injEq, Prod.mk.injEq] at h
              exact h.1.symm

/-- On a failed `createMessage`, the store it returns is either untouched or
differs exactly by the room counter increment performed before the failure. -/
theorem createMessage_error_db (db : Db) (a : CreateArgs)
    (hno : ∀ m, (createMessage db a).2 ≠ .ok m) :
    (createMessage db a).1 = db ∨
    ∃ rid rdoc, a.room = some rid ∧ mget rid db.rooms = some rdoc ∧
      (createMessage db a).1 =
        { db with rooms := mset rid (rdoc.incrementMessageCount db.now) db.rooms } := by
  unfold createMessage at *
  split at hno
  · left; rfl
  · split at hno
    · left; rfl
    · rename_i senderUser _
      split at hno
      · left; rfl
      · rename_i db1 rf cf hstep
        split at hno
        · simp only
          exact createMessageRoomStep_db db a senderUser db1 rf cf hstep
        · exact absurd rfl (hno _)


/-- A lone error event's error list is itself. -/
theorem errorsOf_errEvent (sid : String) : errorsOf [errEvent sid] = [errEvent sid] := by
  simp [errorsOf, errEvent]

/-- The auto-join loop of `handleConnection` emits only `user_online`. -/
theorem joinPersistedRooms_no_error (sock : Socket) (rs : List String) :
    ∀ st, ∀ e ∈ (joinPersistedRooms sock rs st).2, e.name ≠ "error" := by
  induction rs with
  | nil => intro st e he; simp [joinPersistedRooms] at he
  | cons rid rest ih =>
      intro st e he
      simp only [joinPersistedRooms] at he
      rcases List.mem_cons.mp he with h | h
      · rw [h]; simp
      · exact ih _ e h

/-- `handleConnection` emits no `error` event in the model. -/
theorem handleConnection_no_error (st : GatewayState) (db : Db) (sock : Socket) :
    errorsOf (handleConnection st db sock).2.2 = [] := by
  unfold handleConnection
  simp [errorsOf, broadcastUserStatus, List.filter_append]
  intro a ha
  exact joinPersistedRooms_no_error sock _ _ a ha

/-- `handleDisconnection` emits no `error` event. -/
theorem handleDisconnection_no_error (st : GatewayState) (db : Db) (sock : Socket) :
    errorsOf (handleDisconnection st db sock).2.2 = [] := by
  unfold handleDisconnection
  dsimp only
  cases mget sock.userId (cleanupUserData sock.userId sock.id st).onlineUsers with
  | none => simp [errorsOf, broadcastUserStatus]
  | some ud => simp [errorsOf, broadcastUserStatus, List.filter_map, Function.comp]

/-- `handleTypingStart` emits no `error` event (the source only logs). -/
theorem handleTypingStart_no_error (st : GatewayState) (sock : Socket)
    (d : TypingEvtData) (now : Nat) :
    errorsOf (handleTypingStart st sock d now).2 = [] := by
  unfold handleTypingStart
  split
  · dsimp only
    split <;> simp [errorsOf]
  · split
    · simp [errorsOf]
    · rfl

/-- `handleTypingStop` emits no `error` event (the source only logs). -/
theorem handleTypingStop_no_error (st : GatewayState) (sock : Socket)
    (d : TypingEvtData) :
    errorsOf (handleTypingStop st sock d).2 = [] := by
  unfold handleTypingStop
  split
  · dsimp only
    split <;> simp [errorsOf]
  · split
    · dsimp only
      split <;> simp [errorsOf]
    · rfl


/-- The typing sweep emits nothing, hence no `error` event. -/
theorem cleanupTypingIndicators_no_error (now : Nat) (st : GatewayState) :
    errorsOf (cleanupTypingIndicators now st).2 = [] := rfl

/-- `handleSendMessage` either fails with the single error to the sender —
gateway state untouched, store unchanged or counter-bumped — or emits no
error at all. -/
theorem handleSendMessage_error_cases (st : GatewayState) (db : Db) (sock : Socket)
    (d : SendMsgData) :
    ((handleSendMessage st db sock d).2.2 = [errEvent sock.id] ∧
     (handleSendMessage st db sock d).1 = st ∧
     ((handleSendMessage st db sock d).2.1 = db ∨
       ∃ rid rdoc, d.roomId = some rid ∧ mget rid db.rooms = some rdoc ∧
         (handleSendMessage st db sock d).2.1 =
           { db with rooms := mset rid (rdoc.incrementMessageCount db.now) db.rooms })) ∨
    errorsOf (handleSendMessage st db sock d).2.2 = [] := by
  by_cases hval : (optStrFalsy d.roomId || optStrFalsy d.content ||
      decide (jsTrim (d.content.getD "") = "")) = true
  · left
    have hH : handleSendMessage st db sock d = (st, db, [errEvent sock.id]) := by
      unfold handleSendMessage
      rw [if_pos hval]
    rw [hH]
    exact ⟨rfl, rfl, Or.inl rfl⟩
  · rcases hres : createMessage db (roomMsgArgs sock d) with ⟨db', res⟩
    cases res with
    | error e =>
        left
        have hH : handleSendMessage st db sock d = (st, db', [errEvent sock.id]) := by
          unfold handleSendMessage
          rw [if_neg hval]
          simp only [hres]
        rw [hH]
        refine ⟨rfl, rfl, ?_⟩
        have hno : ∀ m, (createMessage db (roomMsgArgs sock d)).2 ≠ Except.ok m := by
          intro m hc
          rw [hres] at hc
          simp at hc
        have hdbs := createMessage_error_db db (roomMsgArgs sock d) hno
        rw [hres] at hdbs
        exact hdbs
    | ok m =>
        right
        unfold handleSendMessage
        rw [if_neg hval]
        simp only [hres]
        split
        · split
          · simp [errorsOf]
          · simp [errorsOf]
        · simp [errorsOf]

/-- `handleSendPrivateMessage` either fails with the single error to the
sender — gateway state and store both untouched — or emits no error. -/
theorem handleSendPrivateMessage_error_cases (st : GatewayState) (db : Db)
    (sock : Socket) (d : PrivMsgData) :
    ((handleSendPrivateMessage st db sock d).2.2 = [errEvent sock.id] ∧
     (handleSendPrivateMessage st db sock d).1 = st ∧
     (handleSendPrivateMessage st db sock d).2.1 = db) ∨
    errorsOf (handleSendPrivateMessage st db sock d).2.2 = [] := by
  by_cases hval : (optStrFalsy d.recipientId || optStrFalsy d.content ||
      decide (jsTrim (d.content.getD "") = "")) = true
  · left
    have hH : handleSendPrivateMessage st db sock d = (st, db, [errEvent sock.id]) := by
      unfold handleSendPrivateMessage
      rw [if_pos hval]
    rw [hH]
    exact ⟨rfl, rfl, rfl⟩
  · by_cases hself : d.recipientId = some sock.userId
    · left
      have hH : handleSendPrivateMessage st db sock d = (st, db, [errEvent sock.id]) := by
        unfold handleSendPrivateMessage
        rw [if_neg hval, if_pos hself]
      rw [hH]
      exact ⟨rfl, rfl, rfl⟩
    · rcases hres : createMessage db (privMsgArgs sock d) with ⟨db', res⟩
      cases res with
      | error e =>
          left
          have hH : handleSendPrivateMessage st db sock d = (st, db', [errEvent sock.id]) := by
            unfold handleSendPrivateMessage
            rw [if_neg hval, if_neg hself]
            simp only [hres]
          rw [hH]
          refine ⟨rfl, rfl, ?_⟩
          have hno : ∀ m, (createMessage db (privMsgArgs sock d)).2 ≠ Except.ok m := by
            intro m hc
            rw [hres] at hc
            simp at hc
          have hdbs := createMessage_error_db db (privMsgArgs sock d) hno
          rw [hres] at hdbs
          rcases hdbs with h | ⟨rid, rdoc, habs, _⟩
          · exact h
          · exact absurd habs (by simp [privMsgArgs])
      | ok m =>
          right
          unfold handleSendPrivateMessage
          rw [if_neg hval, if_neg hself]
          simp only [hres]
          cases mget (d.recipientId.getD "") st.onlineUsers with
          | none =>
              split
              · simp [errorsOf]
              · simp [errorsOf]
          | some rd =>
              split
              · simp [errorsOf]
              · simp [errorsOf]


/-- `handleJoinRoom` never writes the store, and either fails atomically
with the single error, or fails *after* having emitted `user_joined` to the
room and `room_joined` to the requester (the history-fetch failure), or
emits no error. -/
theorem handleJoinRoom_error_cases (st : GatewayState) (db : Db) (sock : Socket)
    (ro : Option String) :
    (handleJoinRoom st db sock ro).2.1 = db ∧
    (((handleJoinRoom st db sock ro).2.2 = [errEvent sock.id] ∧
        (handleJoinRoom st db sock ro).1 = st) ∨
     (∃ rid, ro = some rid ∧
        (handleJoinRoom st db sock ro).2.2 =
          [{ name := "user_joined", target := Target.toRoomExceptSelf rid sock.id,
             payload := { userId := some sock.userId, roomId := some rid } },
           { name := "room_joined", target := Target.toSocket sock.id,
             payload := { roomId := some rid } },
           errEvent sock.id]) ∨
     errorsOf (handleJoinRoom st db sock ro).2.2 = []) := by
  by_cases hval : optStrFalsy ro = true
  · have hH : handleJoinRoom st db sock ro = (st, db, [errEvent sock.id]) := by
      unfold handleJoinRoom
      rw [if_pos hval]
    rw [hH]
    exact ⟨rfl, Or.inl ⟨rfl, rfl⟩⟩
  · rcases hro : ro with _ | rid
    · rw [hro] at hval; simp [optStrFalsy] at hval
    · rw [hro] at hval
      cases hgr : getRoomById db rid sock.userId with
      | error e =>
          have hH : handleJoinRoom st db sock (some rid) = (st, db, [errEvent sock.id]) := by
            unfold handleJoinRoom
            rw [if_neg hval]
            simp only [Option.getD_some, hgr]
          rw [hH]
          exact ⟨rfl, Or.inl ⟨rfl, rfl⟩⟩
      | ok room =>
          cases hgm : getRoomMessages db rid sock.userId 50 with
          | ok pr =>
              refine ⟨?_, Or.inr (Or.inr ?_)⟩
              · unfold handleJoinRoom
                rw [if_neg hval]
                simp only [Option.getD_some, hgr, hgm]
              · unfold handleJoinRoom
                rw [if_neg hval]
                simp only [Option.getD_some, hgr, hgm]
                simp [errorsOf]
          | error e =>
              refine ⟨?_, Or.inr (Or.inl ⟨rid, rfl, ?_⟩)⟩
              · unfold handleJoinRoom
                rw [if_neg hval]
                simp only [Option.getD_some, hgr, hgm]
              · unfold handleJoinRoom
                rw [if_neg hval]
                simp only [Option.getD_some, hgr, hgm]

/-- `handleLeaveRoom` never writes the store and either fails atomically
with the single error or emits no error. -/
theorem handleLeaveRoom_error_cases (st : GatewayState) (db : Db) (sock : Socket)
    (ro : Option String) :
    (handleLeaveRoom st db sock ro).2.1 = db ∧
    (((handleLeaveRoom st db sock ro).2.2 = [errEvent sock.id] ∧
        (handleLeaveRoom st db sock ro).1 = st) ∨
     errorsOf (handleLeaveRoom st db sock ro).2.2 = []) := by
  by_cases hval : optStrFalsy ro = true
  · have hH : handleLeaveRoom st db sock ro = (st, db, [errEvent sock.id]) := by
      unfold handleLeaveRoom
      rw [if_pos hval]
    rw [hH]
    exact ⟨rfl, Or.inl ⟨rfl, rfl⟩⟩
  · cases hm : mget (ro.getD "") db.rooms with
    | none =>
        have hH : handleLeaveRoom st db sock ro = (st, db, [errEvent sock.id]) := by
          unfold handleLeaveRoom
          rw [if_neg hval]
          simp only [hm]
        rw [hH]
        exact ⟨rfl, Or.inl ⟨rfl, rfl⟩⟩
    | some room =>
        refine ⟨?_, Or.inr ?_⟩
        · unfold handleLeaveRoom
          rw [if_neg hval]
          simp only [hm]
        · unfold handleLeaveRoom
          rw [if_neg hval]
          simp only [hm]
          cases hmt : mget (ro.getD "") st.typingUsers with
          | none => simp [hmt, errorsOf]
          | some s =>
              simp only [hmt]
              split <;> simp [errorsOf]


/-- C4 amended: for every inbound operation of the gateway, the emitted
error events are either none or exactly one `error` addressed to the acting
socket only — never broadcast. When an operation does fail: a room-message
send leaves the gateway state unchanged and the store unchanged except
possibly the room counter increment persisted before the failure; a private
send and a leave-room fail fully atomically (no state or store change); a
join-room either fails atomically or — when the failure occurs at the
history-fetch stage — has already emitted `user_joined` to the room's other
members and `room_joined` to the requester before its single error (the
store is never written by join); the remaining handlers (connect,
disconnect, typing start/stop, sweep) emit no error events at all. -/
theorem error_isolation (st : GatewayState) (db : Db) (sock : Socket) :
    (∀ d : SendMsgData,
      (errorsOf (handleSendMessage st db sock d).2.2 = [] ∨
       errorsOf (handleSendMessage st db sock d).2.2 = [errEvent sock.id]) ∧
      (errorsOf (handleSendMessage st db sock d).2.2 ≠ [] →
        (handleSendMessage st db sock d).2.2 = [errEvent sock.id] ∧
        (handleSendMessage st db sock d).1 = st ∧
        ((handleSendMessage st db sock d).2.1 = db ∨
          ∃ rid rdoc, d.roomId = some rid ∧ mget rid db.rooms = some rdoc ∧
            (handleSendMessage st db sock d).2.1 =
              { db with rooms := mset rid (rdoc.incrementMessageCount db.now) db.rooms }))) ∧
    (∀ d : PrivMsgData,
      (errorsOf (handleSendPrivateMessage st db sock d).2.2 = [] ∨
       errorsOf (handleSendPrivateMessage st db sock d).2.2 = [errEvent sock.id]) ∧
      (errorsOf (handleSendPrivateMessage st db sock d).2.2 ≠ [] →
        (handleSendPrivateMessage st db sock d).2.2 = [errEvent sock.id] ∧
        (handleSendPrivateMessage st db sock d).1 = st ∧
        (handleSendPrivateMessage st db sock d).2.1 = db)) ∧
    (∀ ro : Option String,
      (errorsOf (handleJoinRoom st db sock ro).2.2 = [] ∨
       errorsOf (handleJoinRoom st db sock ro).2.2 = [errEvent sock.id]) ∧
      (handleJoinRoom st db sock ro).2.1 = db ∧
      (errorsOf (handleJoinRoom st db sock ro).2.2 ≠ [] →
        ((handleJoinRoom st db sock ro).2.2 = [errEvent sock.id] ∧
          (handleJoinRoom st db sock ro).1 = st) ∨
        (∃ rid, ro = some rid ∧
          (handleJoinRoom st db sock ro).2.2 =
            [{ name := "user_joined", target := Target.toRoomExceptSelf rid sock.id,
               payload := { userId := some sock.userId, roomId := some rid } },
             { name := "room_joined", target := Target.toSocket sock.id,
               payload := { roomId := some rid } },
             errEvent sock.id]))) ∧
    (∀ ro : Option String,
      (errorsOf (handleLeaveRoom st db sock ro).2.2 = [] ∨
       errorsOf (handleLeaveRoom st db sock ro).2.2 = [errEvent sock.id]) ∧
      (errorsOf (handleLeaveRoom st db sock ro).2.2 ≠ [] →
        (handleLeaveRoom st db sock ro).2.2 = [errEvent sock.id] ∧
        (handleLeaveRoom st db sock ro).1 = st ∧
        (handleLeaveRoom st db sock ro).2.1 = db)) ∧
    errorsOf (handleConnection st db sock).2.2 = [] ∧
    errorsOf (handleDisconnection st db sock).2.2 = [] ∧
    (∀ d now, errorsOf (handleTypingStart st sock d now).2 = []) ∧
    (∀ d, errorsOf (handleTypingStop st sock d).2 = []) ∧
    (∀ now, errorsOf (cleanupTypingIndicators now st).2 = []) := by
  refine ⟨?_, ?_, ?_, ?_, handleConnection_no_error st db sock,
    handleDisconnection_no_error st db sock,
    fun d now => handleTypingStart_no_error st sock d now,
    fun d => handleTypingStop_no_error st sock d,
    fun now => cleanupTypingIndicators_no_error now st⟩
  · intro d
    rcases handleSendMessage_error_cases st db sock d with ⟨hev, hst, hdb⟩ | hnone
    · rw [hev]
      exact ⟨Or.inr (errorsOf_errEvent sock.id), fun _ => ⟨rfl, hst, hdb⟩⟩
    · exact ⟨Or.inl hnone, fun hc => absurd hnone hc⟩
  · intro d
    rcases handleSendPrivateMessage_error_cases st db sock d with ⟨hev, hst, hdb⟩ | hnone
    · rw [hev]
      exact ⟨Or.inr (errorsOf_errEvent sock.id), fun _ => ⟨rfl, hst, hdb⟩⟩
    · exact ⟨Or.inl hnone, fun hc => absurd hnone hc⟩
  · intro ro
    rcases handleJoinRoom_error_cases st db sock ro with ⟨hdb, hcases⟩
    rcases hcases with ⟨hev, hst⟩ | ⟨rid, hro, hev⟩ | hnone
    · rw [hev]
      exact ⟨Or.inr (errorsOf_errEvent sock.id), hdb, fun _ => Or.inl ⟨rfl, hst⟩⟩
    · rw [hev]
      refine ⟨Or.inr ?_, hdb, fun _ => Or.inr ⟨rid, hro, rfl⟩⟩
      simp [errorsOf, errEvent]
    · exact ⟨Or.inl hnone, hdb, fun hc => absurd hnone hc⟩
  · intro ro
    rcases handleLeaveRoom_error_cases st db sock ro with ⟨hdb, hcases⟩
    rcases hcases with ⟨hev, hst⟩ | hnone
    · rw [hev]
      exact ⟨Or.inr (errorsOf_errEvent sock.id), fun _ => ⟨rfl, hst, hdb⟩⟩
    · exact ⟨Or.inl hnone, fun hc => absurd hnone hc⟩

/-- C4 counterexample: two failing operations with effects visible to other
users, refuting the claim as stated. A room send whose `replyTo` points at
no message fails with a single error yet leaves the room's persisted
message counter incremented from 0 to 1; and a join of a public active room
by a non-member fails at the history fetch only after `user_joined` has
been broadcast to the room's other live members, `room_joined` sent to the
requester, and the socket added to the live room. -/
theorem error_atomicity_cex :
    ((handleSendMessage wSt wDb wSockU wBadReply).2.2 = [errEvent "sU"] ∧
     (mget "r1" wDb.rooms).map RoomDoc.messageCount = some 0 ∧
     (mget "r1" (handleSendMessage wSt wDb wSockU wBadReply).2.1.rooms).map
       RoomDoc.messageCount = some 1) ∧
    ((handleJoinRoom wSt wDbJoin wSockN (some "r1")).2.2 =
       [{ name := "user_joined", target := Target.toRoomExceptSelf "r1" "sN",
          payload := { userId := some "n", roomId := some "r1" } },
        { name := "room_joined", target := Target.toSocket "sN",
          payload := { roomId := some "r1" } },
        errEvent "sN"] ∧
     "sN" ∈ (mget "r1" (handleJoinRoom wSt wDbJoin wSockN (some "r1")).1.ioRooms).getD []) := by
  decide

/-- C4 witness: concrete failing operations — a blank-content room send and
a self-addressed private send each emit exactly the single error to the
acting socket with no state change, and a connect emits no error. -/
theorem error_isolation_witness :
    ((handleSendMessage wSt wDb wSockU wEmptyMsg).2.2 = [errEvent "sU"] ∧
     (handleSendMessage wSt wDb wSockU wEmptyMsg).1 = wSt) ∧
    ((handleSendPrivateMessage wSt wDb wSockU wPrivSelf).2.2 = [errEvent "sU"] ∧
     (handleSendPrivateMessage wSt wDb wSockU wPrivSelf).1 = wSt ∧
     (handleSendPrivateMessage wSt wDb wSockU wPrivSelf).2.1 = wDb) ∧
    errorsOf (handleConnection wSt wDb wSockU).2.2 = [] :=
  ⟨⟨(((error_isolation wSt wDb wSockU).1 wEmptyMsg).2 (by decide)).1,
    (((error_isolation wSt wDb wSockU).1 wEmptyMsg).2 (by decide)).2.1⟩,
   ((error_isolation wSt wDb wSockU).2.1 wPrivSelf).2 (by decide),
   (error_isolation wSt wDb wSockU).2.2.2.2.1⟩

/-- C9: evaluation at the failing input. In a room holding 51 undeleted
messages created at times 1..51, the `room_messages` snapshot emitted on
join contains ids 50 down to 1 — the fifty *oldest* messages in
newest-first order among themselves — and the actual most recent message
(id 51) is absent, because `getRoomMessages` sorts ascending and takes page
one before the handler reverses. -/
theorem join_history_oldest_bug :
    ∃ e ∈ (handleJoinRoom wSt wDb51 wSockU (some "r1")).2.2,
      e.name = "room_messages" ∧
      e.payload.mids = (List.range 50).map (fun i => 50 - i) ∧
      51 ∉ e.payload.mids := by decide

end ChatGateway
